import Mathlib

/-!
Verification of the CRD scraper (crd_scraper.py) against its specification.

The Python source is shallowly embedded at the character level: Python
strings become Lean `String`s manipulated through their `List Char` data,
`str.split(sep)` becomes `splitChar`, `str.strip()` becomes `stripChars`,
`sep.join(xs)` becomes `joinChar`, and the insertion-ordered JSON
dictionaries of the persisted document become association lists.
-/

namespace CRD

/-- Whitespace predicate of Python `str.strip()` restricted to ASCII:
space, tab, newline, carriage return, vertical tab, form feed. -/
def pyIsSpace (c : Char) : Bool :=
  c == ' ' || c == '\t' || c == '\n' || c == '\r' || c == '\x0b' || c == '\x0c'

/-- Model of Python `str.strip()` on the character list: drop whitespace
from the front, then from the back. -/
def stripChars (l : List Char) : List Char :=
  ((l.dropWhile pyIsSpace).reverse.dropWhile pyIsSpace).reverse

/-- Model of Python `str.strip()` on strings. -/
def pyStrip (s : String) : String :=
  (stripChars s.data).asString

/-- Model of Python `str.split(sep)` for a one-character separator:
`splitChar sep []` is `[[]]` (Python: `"".split(sep) == ['']`), and each
occurrence of `sep` starts a new piece. -/
def splitChar (sep : Char) : List Char → List (List Char)
  | [] => [[]]
  | c :: rest =>
    let r := splitChar sep rest
    if c = sep then [] :: r else (c :: r.headD []) :: r.tail

/-- Model of Python `sep.join(pieces)` for a one-character separator. -/
def joinChar (sep : Char) : List (List Char) → List Char
  | [] => []
  | [x] => x
  | x :: y :: t => x ++ sep :: joinChar sep (y :: t)

/-- Tokens of one reaction segment, as in `_parse_reaction_string`:
`[p.strip() for p in seg.split('.') if p.strip()]`. -/
def tokensOf (seg : List Char) : List (List Char) :=
  ((splitChar '.' seg).map stripChars).filter (fun t => t ≠ [])

/-- Result dictionary of `_parse_reaction_string`. -/
structure ParsedReaction where
  reactant_smiles : List String
  solvents : List String
  product_smiles : List String
deriving DecidableEq, Repr

/-- Embedding of `_parse_reaction_string`: split on the two `>` separators,
pad with empty segments until three exist, tokenize each segment. -/
def _parse_reaction_string (s : String) : ParsedReaction :=
  let parts := splitChar '>' s.data
  let parts := parts ++ List.replicate (3 - parts.length) []
  { reactant_smiles := (tokensOf (parts.getD 0 [])).map List.asString
    solvents := (tokensOf (parts.getD 1 [])).map List.asString
    product_smiles := (tokensOf (parts.getD 2 [])).map List.asString }

/-- Model of `'.'.join(tokens)` as used by `extract_reaction_details`. -/
def joinDots (l : List String) : String :=
  (joinChar '.' (l.map String.data)).asString

/-- Rendering of a parsed reaction back into the three-segment raw
notation, joining each component token list with `.` (the stored string
form of the spec) and the segments with `>`. -/
def renderParsed (p : ParsedReaction) : String :=
  joinDots p.reactant_smiles ++ ">" ++ joinDots p.solvents ++ ">" ++ joinDots p.product_smiles

/-- Record produced by `extract_reaction_details`. -/
structure ReactionDetail where
  reaction_id : String
  name : String
  reactant_smiles : String
  solvent_smiles : String
  product_smiles : String
deriving DecidableEq, Repr

/-- Embedding of `extract_reaction_details`.  The `detailsName` argument
stands for the name obtained from `scrape_details_page details_url` when a
details URL is supplied and the scrape succeeds (`none` otherwise); the
network scrape itself is outside the embedded fragment. -/
def extract_reaction_details (reaction_smiles : String) (reaction_index : Nat)
    (detailsName : Option String) : ReactionDetail :=
  let parsed := _parse_reaction_string reaction_smiles
  { reaction_id := "reaction_" ++ toString (reaction_index + 1)
    name := detailsName.getD ""
    reactant_smiles := joinDots parsed.reactant_smiles
    solvent_smiles := joinDots parsed.solvents
    product_smiles := joinDots parsed.product_smiles }

/-- Boolean character-list prefix test. -/
def isPfxOf : List Char → List Char → Bool
  | [], _ => true
  | _ :: _, [] => false
  | p :: ps, c :: cs => p == c && isPfxOf ps cs

/-- Model of Python `str.startswith`. -/
def pyStartsWith (s pfx : String) : Bool :=
  isPfxOf pfx.data s.data

/-- Character class `[^/]` of the DOI regexes. -/
def notSlash (c : Char) : Bool := c != '/'

/-- Character class `[^/\s&]` of the query-style DOI regex. -/
def notSpecialQ (c : Char) : Bool := !(c == '/') && !(pyIsSpace c) && !(c == '&')

/-- Attempt of the regex `/doi/([^/]+/[^/]+)` at one position: the literal
`/doi/`, then a maximal non-empty run of non-slash characters, a slash,
and a second maximal non-empty run of non-slash characters (the capture
group is both runs with the slash between them).  The run `dropWhile
notSlash rest` is empty exactly when no slash follows the first run, and
otherwise starts with the required slash, so testing its emptiness and
taking its tail matches the literal `/` of the pattern. -/
def tryDoi2 : List Char → Option (List Char)
  | '/' :: 'd' :: 'o' :: 'i' :: '/' :: rest =>
    let a := rest.takeWhile notSlash
    let d := rest.dropWhile notSlash
    if a = [] then none
    else if d = [] then none
    else
      let b := d.tail.takeWhile notSlash
      if b = [] then none else some (a ++ '/' :: b)
  | _ => none

/-- Attempt of the regex `/doi/([^/]+)` at one position. -/
def tryDoi1 : List Char → Option (List Char)
  | '/' :: 'd' :: 'o' :: 'i' :: '/' :: rest =>
    let a := rest.takeWhile notSlash
    if a = [] then none else some a
  | _ => none

/-- Attempt of the regex `doi[=/]([0-9]+\.[^/\s&]+)` at one position:
the literal `doi`, `=` or `/`, a maximal non-empty digit run, a dot, and a
maximal non-empty run of characters that are not `/`, whitespace or `&`. -/
def tryDoiQ : List Char → Option (List Char)
  | 'd' :: 'o' :: 'i' :: sep :: rest =>
    if sep = '=' ∨ sep = '/' then
      let ds := rest.takeWhile Char.isDigit
      if ds = [] then none
      else
        match rest.dropWhile Char.isDigit with
        | '.' :: rest2 =>
          let t := rest2.takeWhile notSpecialQ
          if t = [] then none else some (ds ++ '.' :: t)
        | _ => none
    else none
  | _ => none

/-- Model of `re.search`: try the pattern at each position from the left
and return the first successful capture. -/
def scanFor (attempt : List Char → Option (List Char)) : List Char → Option (List Char)
  | [] => none
  | c :: rest =>
    match attempt (c :: rest) with
    | some g => some g
    | none => scanFor attempt rest

/-- Embedding of `_extract_dataset_id_from_url`.  `hashFn` models Python's
process-dependent string `hash`; only `hash(url) % 1000000` reaches the
output, always behind the sentinel prefix. -/
def extractDatasetIdFromUrl (hashFn : String → Int) (url : String) : String :=
  match scanFor tryDoi2 url.data with
  | some g => g.asString
  | none =>
    match scanFor tryDoi1 url.data with
    | some g => g.asString
    | none =>
      match scanFor tryDoiQ url.data with
      | some g => g.asString
      | none => "dataset_" ++ toString (hashFn url % 1000000)

/-! Persisted store model: insertion-ordered JSON dictionaries. -/

/-- JSON values appearing in the persisted document. -/
inductive Json where
  | str : String → Json
  | obj : List (String × Json) → Json

/-- Lookup in an insertion-ordered dictionary (Python `k in d` / `d[k]`). -/
def alistLookup {α : Type} : List (String × α) → String → Option α
  | [], _ => none
  | (k', v) :: rest, k => if k' = k then some v else alistLookup rest k

/-- Assignment `d[k] = v` in an insertion-ordered dictionary: an existing
key keeps its position, a new key is appended at the end. -/
def alistSet {α : Type} : List (String × α) → String → α → List (String × α)
  | [], k, v => [(k, v)]
  | (k', v') :: rest, k, v =>
    if k' = k then (k', v) :: rest else (k', v') :: alistSet rest k v

/-- Innermost level of the document: reaction_id to payload object. -/
abbrev ReactionMap := List (String × Json)

/-- Middle level: DOI suffix to reaction map. -/
abbrev SuffixMap := List (String × ReactionMap)

/-- Whole document: doi_key to suffix map. -/
abbrev Store := List (String × SuffixMap)

/-- Dataset record as consumed by save_current_data: its dataset_id, its
url, and the reaction_details list (absent when the key is missing from
the dictionary). -/
structure Dataset where
  dataset_id : String
  url : String
  reaction_details : Option (List ReactionDetail)

/-- Identifier test of save_current_data:
`if not doi or doi.startswith('dataset_')`. -/
def badDatasetId (doi : String) : Bool :=
  doi == "" || pyStartsWith doi "dataset_"

/-- Payload object built for one reaction: the three separated SMILES
fields, plus a name field appended only when the stripped name is
non-empty. -/
def reactionPayload (r : ReactionDetail) : Json :=
  let base := [("reactant_smiles", Json.str r.reactant_smiles),
               ("solvent_smiles", Json.str r.solvent_smiles),
               ("product_smiles", Json.str r.product_smiles)]
  if pyStrip r.name ≠ "" then Json.obj (base ++ [("name", Json.str (pyStrip r.name))])
  else Json.obj base

/-- One iteration of the reaction loop of save_current_data: skip a record
with empty reaction_id, otherwise set/overwrite its payload. -/
def insertReaction (rm : ReactionMap) (r : ReactionDetail) : ReactionMap :=
  if r.reaction_id = "" then rm
  else alistSet rm r.reaction_id (reactionPayload r)

/-- Split of a character list at the first slash, as `doi.split('/', 1)`. -/
def splitFirstSlash : List Char → Option (List Char × List Char)
  | [] => none
  | c :: rest =>
    if c = '/' then some ([], rest)
    else (splitFirstSlash rest).map (fun p => (c :: p.1, p.2))

/-- DOI prefix and suffix of save_current_data: the part before the first
slash, and a slash-prefixed remainder (or the whole DOI with an empty
suffix when no slash exists). -/
def splitDoi (doi : String) : String × String :=
  match splitFirstSlash doi.data with
  | some (a, b) => (a.asString, "/" ++ b.asString)
  | none => (doi, "")

/-- Identifier used by save_current_data for one dataset: the stored
dataset_id, re-resolved from the dataset url when it is empty or
sentinel-prefixed. -/
def resolvedId (hashFn : String → Int) (ds : Dataset) : String :=
  if badDatasetId ds.dataset_id then extractDatasetIdFromUrl hashFn ds.url else ds.dataset_id

/-- Merge of one dataset of `self.scraped_data['datasets']` into the
output document, mirroring the per-dataset body of save_current_data:
re-resolve an empty or sentinel identifier from the url, skip if still
unresolved, split the DOI, create the missing dictionary levels, and
set/overwrite each reaction.  The in-place mutation of the nested Python
dicts is rendered as read-modify-write at the same key positions. -/
def mergeDataset (hashFn : String → Int) (out : Store) (ds : Dataset) : Store :=
  let doi := resolvedId hashFn ds
  if badDatasetId doi then out
  else
    let ps := splitDoi doi
    let doiKey := "DOI " ++ ps.1
    let sm := (alistLookup out doiKey).getD []
    let rm := (alistLookup sm ps.2).getD []
    match ds.reaction_details with
    | none => alistSet out doiKey (alistSet sm ps.2 rm)
    | some rs => alistSet out doiKey (alistSet sm ps.2 (rs.foldl insertReaction rm))

/-- Pure merge part of save_current_data: deep-copy the existing snapshot
(the identity on immutable Lean values) and merge each pending dataset. -/
def save_current_data (hashFn : String → Int) (existing : Store)
    (datasets : List Dataset) : Store :=
  datasets.foldl (mergeDataset hashFn) existing

/-- Two-level lookup into the persisted document. -/
def store2 (st : Store) (pk sk : String) : Option ReactionMap :=
  (alistLookup st pk).bind (fun sm => alistLookup sm sk)

/-- Three-level lookup into the persisted document. -/
def store3 (st : Store) (pk sk rid : String) : Option Json :=
  (alistLookup st pk).bind (fun sm =>
    (alistLookup sm sk).bind (fun rm => alistLookup rm rid))

/-- Field lookup inside a JSON object. -/
def jsonField (j : Json) (k : String) : Option Json :=
  match j with
  | .str _ => none
  | .obj kvs => alistLookup kvs k

/-! File write model for the persistence step. -/

mutual
/-- Serialization of a JSON value.  String escaping and the indentation
of `json.dump(..., indent=2)` are simplified; no claim depends on the
exact bytes of a successfully written document. -/
def serializeJson : Json → String
  | .str s => "\x22" ++ s ++ "\x22"
  | .obj kvs => "\x7b" ++ serializeFields kvs ++ "\x7d"

/-- Serialization of the fields of a JSON object. -/
def serializeFields : List (String × Json) → String
  | [] => ""
  | [(k, v)] => "\x22" ++ k ++ "\x22: " ++ serializeJson v
  | (k, v) :: rest =>
    "\x22" ++ k ++ "\x22: " ++ serializeJson v ++ ", " ++ serializeFields rest
end

/-- The typed document as a JSON value. -/
def storeJson (st : Store) : Json :=
  Json.obj (st.map (fun p => (p.1, Json.obj (p.2.map (fun q => (q.1, Json.obj q.2))))))

/-- Serialization of the whole document. -/
def serializeStore (st : Store) : String :=
  serializeJson (storeJson st)

/-- State held by the scraper around a save: the in-memory snapshot
`self.existing_data` and the current content of the backing file. -/
structure SaverState where
  existing_data : Store
  fileContent : String

/-- Outcome of one file write: success, or an exception raised after k
characters reached the file. -/
inductive WriteOutcome where
  | ok
  | failAfter (k : Nat)

/-- File content produced by `open(path, 'w')` followed by `json.dump`:
the file is truncated, then the serialized document is streamed into it;
a failure after k characters leaves the truncated prefix.  The Bool tells
whether the write succeeded. -/
def writeFile (content : String) : WriteOutcome → String × Bool
  | .ok => (content, true)
  | .failAfter k => ((content.data.take k).asString, false)

/-- Embedding of save_current_data including the file write and its error
handling.  With pending datasets the write and the snapshot assignment
are wrapped in try/except whose handler only prints, so no exception
escapes; the early-return branch for an empty pending list writes without
a handler, so there a failure propagates.  The returned Bool tells
whether an exception escaped to the caller. -/
def saveStep (hashFn : String → Int) (st : SaverState) (datasets : List Dataset)
    (w : WriteOutcome) : SaverState × Bool :=
  if datasets.isEmpty then
    let doc := serializeStore st.existing_data
    let res := writeFile doc w
    if res.2 then ({ existing_data := st.existing_data, fileContent := res.1 }, false)
    else ({ existing_data := st.existing_data, fileContent := res.1 }, true)
  else
    let final := save_current_data hashFn st.existing_data datasets
    let doc := serializeStore final
    let res := writeFile doc w
    if res.2 then ({ existing_data := final, fileContent := res.1 }, false)
    else ({ existing_data := st.existing_data, fileContent := res.1 }, false)

/-! Reaction extraction strategies and pagination. -/

/-- Abstraction of one listing page: the candidate strings each extraction
strategy locates in the markup, in document order, plus the next-page link
the page exposes.  Locating the candidates is done by the HTML parser and
the regex engine; the strategy logic of the scraper consumes their
results. -/
structure PageData where
  paneSmiles : List String
  pushLiterals : List String
  attrSmiles : List String
  soupAttrSmiles : List String
  scriptStrings : List String
  nextLink : Option String

/-- Replacement of the non-overlapping occurrences of a pattern, scanning
left to right, as Python `str.replace`; the fuel is the input length, one
character is consumed per step. -/
def replaceCharsFuel (pat repl : List Char) : Nat → List Char → List Char
  | 0, l => l
  | _ + 1, [] => []
  | fuel + 1, c :: rest =>
    if isPfxOf pat (c :: rest) && !(pat.isEmpty) then
      repl ++ replaceCharsFuel pat repl fuel (List.drop (pat.length - 1) rest)
    else c :: replaceCharsFuel pat repl fuel rest

/-- Model of Python `str.replace` for the non-empty entity patterns. -/
def pyReplace (s pat repl : String) : String :=
  (replaceCharsFuel pat.data repl.data s.data.length s.data).asString

/-- Decoding of the three HTML entities, in the order the code applies
them. -/
def decodeEntities (s : String) : String :=
  pyReplace (pyReplace (pyReplace s "&gt;" ">") "&lt;" "<") "&amp;" "&"

/-- Append one candidate attribute value: skip the empty string, decode
entities, skip duplicates, keep order. -/
def addSmilesDecoded (reactions : List String) (raw : String) : List String :=
  if raw = "" then reactions
  else
    let d := decodeEntities raw
    if d ∈ reactions then reactions else reactions ++ [d]

/-- Append one script-scan candidate: require a separator and skip
duplicates, with no decoding. -/
def addScriptMatch (reactions : List String) (s : String) : List String :=
  if '>' ∈ s.data ∧ s ∉ reactions then reactions ++ [s] else reactions

/-- Primary structural strategy: attribute values found inside the
reaction panes, in pane order. -/
def primaryStrategy (p : PageData) : List String :=
  p.paneSmiles.foldl addSmilesDecoded []

/-- Fallback 1: push-call literals appended without decoding or
duplicate check. -/
def fallbackPush (acc : List String) (p : PageData) : List String :=
  acc ++ p.pushLiterals.filter (fun s => s ≠ "")

/-- Fallback 2: regex-located attribute values, decoded and
deduplicated against everything collected so far. -/
def fallbackAttr (acc : List String) (p : PageData) : List String :=
  p.attrSmiles.foldl addSmilesDecoded acc

/-- Fallback 3: parser-located attribute values, decoded and
deduplicated against everything collected so far. -/
def fallbackSoup (acc : List String) (p : PageData) : List String :=
  p.soupAttrSmiles.foldl addSmilesDecoded acc

/-- Fallback 4: script-embedded reaction-shaped strings. -/
def fallbackScript (acc : List String) (p : PageData) : List String :=
  p.scriptStrings.foldl addScriptMatch acc

/-- Embedding of _extract_reactions_from_page: the primary strategy wins
outright when it yields anything; otherwise the four fallbacks run in
order, each extending the accumulated list. -/
def extractReactionsFromPage (p : PageData) : List String :=
  let reactions := p.paneSmiles.foldl addSmilesDecoded []
  if reactions ≠ [] then reactions
  else
    let reactions := reactions ++ p.pushLiterals.filter (fun s => s ≠ "")
    let reactions := p.attrSmiles.foldl addSmilesDecoded reactions
    let reactions := p.soupAttrSmiles.foldl addSmilesDecoded reactions
    p.scriptStrings.foldl addScriptMatch reactions

/-- Embedding of the pagination loop of scrape_reaction_data_page: fetch,
stop on fetch failure, stop immediately when a page yields zero reactions,
otherwise accumulate the reactions and follow a next link that differs
from the current url.  Returns the accumulated reactions together with
the list of urls handed to fetch; the fuel bounds the recursion and never
matters when the walk stops. -/
def walkPages (fetch : String → Option PageData) :
    Nat → String → List String → List String × List String
  | 0, _, acc => (acc, [])
  | fuel + 1, url, acc =>
    match fetch url with
    | none => (acc, [url])
    | some p =>
      let reactions := extractReactionsFromPage p
      if reactions = [] then (acc, [url])
      else
        match p.nextLink with
        | none => (acc ++ reactions, [url])
        | some nxt =>
          if nxt = url then (acc ++ reactions, [url])
          else
            let rest := walkPages fetch fuel nxt (acc ++ reactions)
            (rest.1, url :: rest.2)

/-! Concrete records used by the closed instances. -/

/-- Scenario reaction record. -/
def sampleDetail : ReactionDetail :=
  { reaction_id := "reaction_1", name := "", reactant_smiles := "CCO.CC(=O)O",
    solvent_smiles := "O", product_smiles := "CC(=O)OCC.O" }

/-- Second reaction record sharing the same reaction_id. -/
def sampleDetailB : ReactionDetail :=
  { reaction_id := "reaction_1", name := "", reactant_smiles := "N",
    solvent_smiles := "", product_smiles := "NC" }

/-- Scenario dataset with a resolved DOI identifier. -/
def sampleDataset : Dataset :=
  { dataset_id := "10.1021/jacsau.4c01276", url := "",
    reaction_details := some [sampleDetail] }

/-- Dataset resolving to the same DOI as sampleDataset but holding the
second record. -/
def sampleDatasetB : Dataset :=
  { dataset_id := "10.1021/jacsau.4c01276", url := "",
    reaction_details := some [sampleDetailB] }

/-- Dataset with a different DOI suffix. -/
def sampleDatasetC : Dataset :=
  { dataset_id := "10.1021/zz.123", url := "",
    reaction_details := some [sampleDetailB] }

/-- Dataset with a sentinel identifier and a DOI-bearing url. -/
def sentinelUrlDataset : Dataset :=
  { dataset_id := "dataset_42",
    url := "https://kmt.vander-lingen.nl/doi/10.1021/jacsau.4c01276/start/0",
    reaction_details := some [sampleDetail] }

/-- Dataset with a sentinel identifier and a DOI-free url. -/
def sentinelPlainDataset : Dataset :=
  { dataset_id := "dataset_5", url := "https://example.com/page",
    reaction_details := some [sampleDetail] }

/-- Listing page whose panes carry entity-encoded duplicates, with
populated fallback sources that must be ignored. -/
def panePage : PageData :=
  { paneSmiles := ["A&gt;B&gt;C", "A&gt;B&gt;C", ""], pushLiterals := ["X>Y>Z"],
    attrSmiles := ["IGNORED"], soupAttrSmiles := ["IGNORED2"],
    scriptStrings := ["S>T>U"], nextLink := none }

/-- Same panes as panePage with entirely different fallback sources. -/
def panePageAlt : PageData :=
  { paneSmiles := ["A&gt;B&gt;C", "A&gt;B&gt;C", ""], pushLiterals := [],
    attrSmiles := [], soupAttrSmiles := [], scriptStrings := [],
    nextLink := some "elsewhere" }

/-- Listing page with no panes, exercising the cumulative fallbacks. -/
def fallbackPage : PageData :=
  { paneSmiles := [], pushLiterals := ["X>Y>Z", ""],
    attrSmiles := ["M&gt;N&gt;O"], soupAttrSmiles := ["M>N>O"],
    scriptStrings := ["P>Q>R", "X>Y>Z"], nextLink := none }

/-- Listing page with no reaction candidates at all but a stray next
link. -/
def emptyListingPage : PageData :=
  { paneSmiles := [], pushLiterals := [], attrSmiles := [],
    soupAttrSmiles := [], scriptStrings := [], nextLink := some "page2" }

/-- Fetch function serving only the empty listing page. -/
def sampleFetch : String → Option PageData :=
  fun u => if u = "page1" then some emptyListingPage else none

/-! Basic lemmas about the character-level string operations. -/

theorem dropWhile_idem (p : α → Bool) (l : List α) :
    List.dropWhile p (List.dropWhile p l) = List.dropWhile p l := by
  induction l with
  | nil => rfl
  | cons a l ih =>
    by_cases ha : p a
    · simp [List.dropWhile_cons, ha, ih]
    · simp [List.dropWhile_cons, ha]

theorem dropWhile_eq_self_of_isPrefix {p : α → Bool} {t d : List α}
    (hpre : t <+: d) (hd : List.dropWhile p d = d) : List.dropWhile p t = t := by
  cases t with
  | nil => rfl
  | cons a t' =>
    obtain ⟨r, hr⟩ := hpre
    have ha : p a = false := by
      cases hv : p a
      · rfl
      · exfalso
        rw [← hr] at hd
        simp only [List.cons_append, List.dropWhile_cons, hv, if_true] at hd
        have hlen := (@List.dropWhile_suffix _ (t' ++ r) p).length_le
        rw [hd] at hlen
        simp at hlen
    simp [List.dropWhile_cons, ha]

theorem stripChars_fixed (l : List Char) : stripChars (stripChars l) = stripChars l := by
  unfold stripChars
  set d := l.dropWhile pyIsSpace with hd
  set e := d.reverse.dropWhile pyIsSpace with he
  have hdfix : List.dropWhile pyIsSpace d = d := dropWhile_idem _ _
  have hefix : List.dropWhile pyIsSpace e = e := by
    rw [he]; exact dropWhile_idem _ _
  have hsuf : e <:+ d.reverse := by rw [he]; exact List.dropWhile_suffix _
  have hrevpre : e.reverse <+: d := by
    have := List.reverse_prefix.mpr hsuf
    simpa using this
  have h1 : List.dropWhile pyIsSpace e.reverse = e.reverse :=
    dropWhile_eq_self_of_isPrefix hrevpre hdfix
  rw [h1]
  simp [hefix]

theorem mem_of_mem_stripChars {c : Char} {l : List Char} (h : c ∈ stripChars l) : c ∈ l := by
  unfold stripChars at h
  rw [List.mem_reverse] at h
  have h2 := (List.dropWhile_suffix pyIsSpace).subset h
  rw [List.mem_reverse] at h2
  exact (List.dropWhile_suffix pyIsSpace).subset h2

theorem splitChar_cons (sep c : Char) (rest : List Char) :
    splitChar sep (c :: rest) = if c = sep then [] :: splitChar sep rest
      else (c :: (splitChar sep rest).headD []) :: (splitChar sep rest).tail := rfl

theorem splitChar_ne_nil (sep : Char) (l : List Char) : splitChar sep l ≠ [] := by
  cases l with
  | nil => simp [splitChar]
  | cons c rest =>
    rw [splitChar_cons]
    by_cases hc : c = sep <;> simp [hc]

theorem splitChar_of_not_mem {sep : Char} {l : List Char} (h : sep ∉ l) :
    splitChar sep l = [l] := by
  induction l with
  | nil => rfl
  | cons c rest ih =>
    have hc : ¬ c = sep := fun hc => h (hc ▸ List.mem_cons_self c rest)
    have hrest : sep ∉ rest := fun hr => h (List.mem_cons_of_mem c hr)
    rw [splitChar_cons, if_neg hc, ih hrest]
    rfl

theorem splitChar_append_sep {sep : Char} {x : List Char} (r : List Char) (h : sep ∉ x) :
    splitChar sep (x ++ sep :: r) = x :: splitChar sep r := by
  induction x with
  | nil => simp [splitChar_cons]
  | cons c x' ih =>
    have hc : ¬ c = sep := fun hc => h (hc ▸ List.mem_cons_self c x')
    have hx' : sep ∉ x' := fun hr => h (List.mem_cons_of_mem c hr)
    rw [List.cons_append, splitChar_cons, if_neg hc, ih hx']
    rfl

theorem mem_of_mem_splitChar {sep : Char} :
    ∀ {l pc : List Char}, pc ∈ splitChar sep l → ∀ c ∈ pc, c ∈ l := by
  intro l
  induction l with
  | nil =>
    intro pc hpc c hc
    simp [splitChar] at hpc
    subst hpc
    simp at hc
  | cons a rest ih =>
    intro pc hpc c hc
    rcases hsr : splitChar sep rest with _ | ⟨hd, tl⟩
    · exact absurd hsr (splitChar_ne_nil sep rest)
    rw [splitChar_cons, hsr] at hpc
    by_cases ha : a = sep
    · rw [if_pos ha] at hpc
      rcases List.mem_cons.mp hpc with hpc | hpc
      · subst hpc; simp at hc
      · exact List.mem_cons_of_mem a (ih (hsr ▸ hpc) c hc)
    · rw [if_neg ha] at hpc
      simp only [List.headD_cons, List.tail_cons] at hpc
      rcases List.mem_cons.mp hpc with hpc | hpc
      · subst hpc
        rcases List.mem_cons.mp hc with hc | hc
        · exact hc ▸ List.mem_cons_self a rest
        · have hhd : hd ∈ splitChar sep rest := by
            rw [hsr]; exact List.mem_cons_self hd tl
          exact List.mem_cons_of_mem a (ih hhd c hc)
      · have htl : pc ∈ splitChar sep rest := by
          rw [hsr]; exact List.mem_cons_of_mem hd hpc
        exact List.mem_cons_of_mem a (ih htl c hc)

theorem sep_not_mem_of_mem_splitChar {sep : Char} :
    ∀ {l pc : List Char}, pc ∈ splitChar sep l → sep ∉ pc := by
  intro l
  induction l with
  | nil =>
    intro pc hpc
    simp [splitChar] at hpc
    subst hpc
    simp
  | cons a rest ih =>
    intro pc hpc
    rcases hsr : splitChar sep rest with _ | ⟨hd, tl⟩
    · exact absurd hsr (splitChar_ne_nil sep rest)
    rw [splitChar_cons, hsr] at hpc
    by_cases ha : a = sep
    · rw [if_pos ha] at hpc
      rcases List.mem_cons.mp hpc with hpc | hpc
      · subst hpc; simp
      · exact ih (hsr ▸ hpc)
    · rw [if_neg ha] at hpc
      simp only [List.headD_cons, List.tail_cons] at hpc
      rcases List.mem_cons.mp hpc with hpc | hpc
      · subst hpc
        intro hmem
        rcases List.mem_cons.mp hmem with hc | hc
        · exact ha hc.symm
        · have hhd : hd ∈ splitChar sep rest := by
            rw [hsr]; exact List.mem_cons_self hd tl
          exact ih hhd hc
      · have htl : pc ∈ splitChar sep rest := by
          rw [hsr]; exact List.mem_cons_of_mem hd hpc
        exact ih htl

theorem splitChar_joinChar {sep : Char} :
    ∀ {L : List (List Char)}, (∀ piece ∈ L, sep ∉ piece) → L ≠ [] →
      splitChar sep (joinChar sep L) = L := by
  intro L
  induction L with
  | nil => intro _ h; exact absurd rfl h
  | cons x L' ih =>
    intro hfree _
    cases L' with
    | nil =>
      show splitChar sep (joinChar sep [x]) = [x]
      rw [joinChar]
      exact splitChar_of_not_mem (hfree x (List.mem_cons_self x []))
    | cons y t =>
      show splitChar sep (x ++ sep :: joinChar sep (y :: t)) = x :: (y :: t)
      rw [splitChar_append_sep _ (hfree x (List.mem_cons_self x (y :: t)))]
      rw [ih (fun p hp => hfree p (List.mem_cons_of_mem x hp)) (by simp)]

theorem mem_joinChar {sep c : Char} :
    ∀ {L : List (List Char)}, c ∈ joinChar sep L → c = sep ∨ ∃ x ∈ L, c ∈ x := by
  intro L
  induction L with
  | nil => intro h; simp [joinChar] at h
  | cons x L' ih =>
    intro h
    cases L' with
    | nil =>
      right
      exact ⟨x, List.mem_cons_self x [], h⟩
    | cons y t =>
      rw [joinChar] at h
      rcases List.mem_append.mp h with h | h
      · right; exact ⟨x, List.mem_cons_self x (y :: t), h⟩
      · rcases List.mem_cons.mp h with h | h
        · left; exact h
        · rcases ih h with h | ⟨z, hz, hcz⟩
          · left; exact h
          · right; exact ⟨z, List.mem_cons_of_mem x hz, hcz⟩

theorem tokensOf_spec {seg tk : List Char} (h : tk ∈ tokensOf seg) :
    tk ≠ [] ∧ stripChars tk = tk ∧ '.' ∉ tk ∧ ∀ c ∈ tk, c ∈ seg := by
  unfold tokensOf at h
  rw [List.mem_filter] at h
  obtain ⟨hmem, hne⟩ := h
  rw [List.mem_map] at hmem
  obtain ⟨piece, hpiece, htk⟩ := hmem
  subst htk
  refine ⟨by simpa using hne, stripChars_fixed piece, ?_, ?_⟩
  · intro hdot
    exact sep_not_mem_of_mem_splitChar hpiece (mem_of_mem_stripChars hdot)
  · intro c hc
    exact mem_of_mem_splitChar hpiece c (mem_of_mem_stripChars hc)

theorem tokensOf_joinChar {L : List (List Char)}
    (h : ∀ tk ∈ L, tk ≠ [] ∧ stripChars tk = tk ∧ '.' ∉ tk) :
    tokensOf (joinChar '.' L) = L := by
  cases L with
  | nil => rfl
  | cons x L' =>
    unfold tokensOf
    rw [splitChar_joinChar (fun p hp => ((h p hp).2.2)) (by simp)]
    have hmap : List.map stripChars (x :: L') = x :: L' := by
      have hcongr : ∀ tk ∈ x :: L', stripChars tk = id tk :=
        fun tk htk => (h tk htk).2.1
      rw [List.map_congr_left hcongr, List.map_id]
    rw [hmap]
    exact List.filter_eq_self.mpr (fun tk htk => by simpa using (h tk htk).1)

theorem getD_append_replicate_nil :
    ∀ (xs : List (List Char)) (k i : Nat),
      (xs ++ List.replicate k ([] : List Char)).getD i [] = xs.getD i [] := by
  intro xs
  induction xs with
  | nil =>
    intro k
    induction k with
    | zero => intro i; rfl
    | succ k ihk =>
      intro i
      cases i with
      | zero => simp
      | succ i => simpa using ihk i
  | cons x xs ih =>
    intro k i
    cases i with
    | zero => simp
    | succ i => simpa using ih k i

theorem getD_mem_or_default {α : Type} :
    ∀ (xs : List α) (i : Nat) (d : α), xs.getD i d ∈ xs ∨ xs.getD i d = d := by
  intro xs
  induction xs with
  | nil => intro i d; right; simp
  | cons x xs ih =>
    intro i d
    cases i with
    | zero => left; simp
    | succ i =>
      rcases ih i d with h | h
      · left; rw [List.getD_cons_succ]; exact List.mem_cons_of_mem x h
      · right; rw [List.getD_cons_succ]; exact h

theorem parse_eq_splitChar (s : String) :
    _parse_reaction_string s =
      { reactant_smiles := (tokensOf ((splitChar '>' s.data).getD 0 [])).map List.asString
        solvents := (tokensOf ((splitChar '>' s.data).getD 1 [])).map List.asString
        product_smiles := (tokensOf ((splitChar '>' s.data).getD 2 [])).map List.asString } := by
  unfold _parse_reaction_string
  simp only [getD_append_replicate_nil]

theorem data_joinDots_map (t : List (List Char)) :
    (joinDots (t.map List.asString)).data = joinChar '.' t := by
  unfold joinDots
  have hmm : (t.map List.asString).map String.data = t := by
    rw [List.map_map]
    have hco : String.data ∘ List.asString = id := funext (fun l => rfl)
    rw [hco, List.map_id]
  rw [hmm]
  rfl

theorem gtFree_getD_splitChar (s : String) (i : Nat) :
    '>' ∉ (splitChar '>' s.data).getD i [] := by
  rcases getD_mem_or_default (splitChar '>' s.data) i [] with h | h
  · exact sep_not_mem_of_mem_splitChar h
  · rw [h]; simp

theorem gtFree_joinChar_tokensOf {g : List Char} (hg : '>' ∉ g) :
    '>' ∉ joinChar '.' (tokensOf g) := by
  intro hc
  rcases mem_joinChar hc with h | ⟨x, hx, hcx⟩
  · simp at h
  · exact hg ((tokensOf_spec hx).2.2.2 '>' hcx)

/-- C5 counterexample: on the scenario input the code yields
reactant_smiles in source segment order, not the re-sorted value the claim
states. -/
theorem c5_reactant_order_counterexample :
    (extract_reaction_details "CCO.CC(=O)O>O>CC(=O)OCC.O" 0 none).reactant_smiles ≠
      "CC(=O)O.CCO" := by decide

/-- C5 amended: parsing the scenario raw string with reaction_index 0 gives
reaction_id reaction_1, reactant_smiles "CCO.CC(=O)O" (tokens in source
segment order), solvent_smiles "O" and product_smiles "CC(=O)OCC.O". -/
theorem c5_scenario_parse :
    extract_reaction_details "CCO.CC(=O)O>O>CC(=O)OCC.O" 0 none =
    { reaction_id := "reaction_1", name := "", reactant_smiles := "CCO.CC(=O)O",
      solvent_smiles := "O", product_smiles := "CC(=O)OCC.O" } := by decide

theorem tokensOf_props {g : List Char} :
    ∀ tk ∈ tokensOf g, tk ≠ [] ∧ stripChars tk = tk ∧ '.' ∉ tk :=
  fun tk htk => ⟨(tokensOf_spec htk).1, (tokensOf_spec htk).2.1, (tokensOf_spec htk).2.2.1⟩

/-- C6: for every raw reaction string with 0, 1 or 2 separators, parsing,
re-joining each component token list with a dot, and re-parsing yields the
original parse; parsing is a total function, so it never fails. -/
theorem c6_parse_render_idempotent (r : String) (h : r.data.count '>' ≤ 2) :
    _parse_reaction_string (renderParsed (_parse_reaction_string r)) = _parse_reaction_string r := by
  rw [parse_eq_splitChar r]
  have hg0 := gtFree_getD_splitChar r 0
  have hg1 := gtFree_getD_splitChar r 1
  have hg2 := gtFree_getD_splitChar r 2
  set g0 := (splitChar '>' r.data).getD 0 [] with hdef0
  set g1 := (splitChar '>' r.data).getD 1 [] with hdef1
  set g2 := (splitChar '>' r.data).getD 2 [] with hdef2
  have hJ0 : '>' ∉ joinChar '.' (tokensOf g0) := gtFree_joinChar_tokensOf hg0
  have hJ1 : '>' ∉ joinChar '.' (tokensOf g1) := gtFree_joinChar_tokensOf hg1
  have hJ2 : '>' ∉ joinChar '.' (tokensOf g2) := gtFree_joinChar_tokensOf hg2
  have hgtd : (">" : String).data = ['>'] := rfl
  have hdata : (renderParsed
      { reactant_smiles := (tokensOf g0).map List.asString
        solvents := (tokensOf g1).map List.asString
        product_smiles := (tokensOf g2).map List.asString }).data =
      joinChar '.' (tokensOf g0) ++ '>' ::
        (joinChar '.' (tokensOf g1) ++ '>' :: joinChar '.' (tokensOf g2)) := by
    unfold renderParsed
    simp only [String.data_append, data_joinDots_map, hgtd, List.append_assoc,
      List.singleton_append]
    simp [List.cons_append]
  rw [parse_eq_splitChar (renderParsed _), hdata]
  rw [splitChar_append_sep _ hJ0, splitChar_append_sep _ hJ1, splitChar_of_not_mem hJ2]
  simp only [List.getD_cons_zero, List.getD_cons_succ]
  rw [tokensOf_joinChar tokensOf_props, tokensOf_joinChar tokensOf_props,
    tokensOf_joinChar tokensOf_props]

/-- Witness for C6 at the concrete scenario string. -/
theorem c6_parse_render_idempotent_witness :
    ("CCO.CC(=O)O>O>CC(=O)OCC.O" : String).data.count '>' ≤ 2 ∧
      _parse_reaction_string (renderParsed (_parse_reaction_string "CCO.CC(=O)O>O>CC(=O)OCC.O")) =
        _parse_reaction_string "CCO.CC(=O)O>O>CC(=O)OCC.O" :=
  ⟨by decide, c6_parse_render_idempotent "CCO.CC(=O)O>O>CC(=O)OCC.O" (by decide)⟩

/-! Lemmas about the position-by-position regex scan. -/

theorem scanFor_cons (attempt : List Char → Option (List Char)) (c : Char) (rest : List Char) :
    scanFor attempt (c :: rest) =
      match attempt (c :: rest) with
      | some g => some g
      | none => scanFor attempt rest := rfl

theorem scanFor_eq_none {attempt : List Char → Option (List Char)} :
    ∀ {l : List Char}, (∀ n, n < l.length → attempt (l.drop n) = none) →
      scanFor attempt l = none := by
  intro l
  induction l with
  | nil => intro _; rfl
  | cons c rest ih =>
    intro h
    rw [scanFor_cons]
    have h0 : attempt (c :: rest) = none := by simpa using h 0 (by simp)
    rw [h0]
    exact ih (fun n hn => by simpa using h (n + 1) (by simpa using hn))

theorem scanFor_append {attempt : List Char → Option (List Char)} :
    ∀ {x : List Char} (t : List Char),
      (∀ n, n < x.length → attempt ((x ++ t).drop n) = none) →
      scanFor attempt (x ++ t) = scanFor attempt t := by
  intro x
  induction x with
  | nil => intro t _; rfl
  | cons c x' ih =>
    intro t h
    rw [List.cons_append, scanFor_cons]
    have h0 : attempt (c :: (x' ++ t)) = none := by simpa using h 0 (by simp)
    rw [h0]
    exact ih t (fun n hn => by simpa [List.drop_succ_cons] using h (n + 1) (by simpa using hn))

theorem takeWhile_all {p : α → Bool} :
    ∀ {x : List α}, (∀ c ∈ x, p c = true) → x.takeWhile p = x := by
  intro x
  induction x with
  | nil => intro _; rfl
  | cons a x' ih =>
    intro h
    rw [List.takeWhile_cons, if_pos (h a (List.mem_cons_self a x')),
      ih (fun c hc => h c (List.mem_cons_of_mem a hc))]

theorem takeWhile_append_sat {p : α → Bool} :
    ∀ {x : List α} {y : α} (r : List α), (∀ c ∈ x, p c = true) → p y = false →
      (x ++ y :: r).takeWhile p = x ∧ (x ++ y :: r).dropWhile p = y :: r := by
  intro x
  induction x with
  | nil =>
    intro y r _ hy
    constructor
    · rw [List.nil_append, List.takeWhile_cons, if_neg (by simp [hy])]
    · rw [List.nil_append, List.dropWhile_cons, if_neg (by simp [hy])]
  | cons a x' ih =>
    intro y r h hy
    have ha : p a = true := h a (List.mem_cons_self a x')
    have h' : ∀ c ∈ x', p c = true := fun c hc => h c (List.mem_cons_of_mem a hc)
    obtain ⟨ht, hd⟩ := ih r h' hy
    constructor
    · rw [List.cons_append, List.takeWhile_cons, if_pos ha, ht]
    · rw [List.cons_append, List.dropWhile_cons, if_pos ha, hd]

theorem isPfxOf_self_append : ∀ (p r : List Char), isPfxOf p (p ++ r) = true := by
  intro p
  induction p with
  | nil => intro r; rfl
  | cons c p' ih => intro r; simp [isPfxOf, ih]

theorem notSlash_eq_true {c : Char} (hc : c ≠ '/') : notSlash c = true := by
  simp [notSlash, hc]

theorem notSlash_slash : notSlash '/' = false := rfl

theorem tryDoi2_cons (rest : List Char) :
    tryDoi2 ('/' :: 'd' :: 'o' :: 'i' :: '/' :: rest) =
      (if rest.takeWhile notSlash = [] then none
       else if rest.dropWhile notSlash = [] then none
       else if (rest.dropWhile notSlash).tail.takeWhile notSlash = [] then none
       else some (rest.takeWhile notSlash ++ '/' ::
         (rest.dropWhile notSlash).tail.takeWhile notSlash)) := rfl

theorem tryDoi1_cons (rest : List Char) :
    tryDoi1 ('/' :: 'd' :: 'o' :: 'i' :: '/' :: rest) =
      (if rest.takeWhile notSlash = [] then none
       else some (rest.takeWhile notSlash)) := rfl

theorem notSlash_all {A : List Char} (hfree : '/' ∉ A) : ∀ c ∈ A, notSlash c = true :=
  fun c hc => notSlash_eq_true (fun he => hfree (he ▸ hc))

theorem takeWhile_notSlash_seg {B post : List Char} (hfree : '/' ∉ B)
    (hpost : post.headD '/' = '/') :
    (B ++ post).takeWhile notSlash = B := by
  cases hp : post with
  | nil => rw [List.append_nil]; exact takeWhile_all (notSlash_all hfree)
  | cons c rest =>
    have hc : c = '/' := by rw [hp] at hpost; simpa using hpost
    subst hc
    exact (takeWhile_append_sat rest (notSlash_all hfree) notSlash_slash).1

/-- C7: identity resolution from a URL.  First conjunct: a URL whose first
`/doi/` occurrence is followed by two non-empty path segments resolves to
exactly `A/B`.  Second conjunct: when no two-segment match exists anywhere
and the first `/doi/` occurrence is followed by a single segment, the
resolution is exactly `A` (so the two-segment match, tried first, is never
overridden by the prefix-only match).  Third conjunct: a URL matching none
of the DOI patterns resolves to a string carrying the `dataset_` sentinel
prefix. -/
theorem c7_doi_resolution :
    (∀ (hashFn : String → Int) (pre A B post : String),
      A.data ≠ [] → '/' ∉ A.data → B.data ≠ [] → '/' ∉ B.data →
      post.data.headD '/' = '/' →
      (∀ n, n < pre.data.length →
        tryDoi2 ((pre ++ "/doi/" ++ A ++ "/" ++ B ++ post).data.drop n) = none) →
      extractDatasetIdFromUrl hashFn (pre ++ "/doi/" ++ A ++ "/" ++ B ++ post) =
        A ++ "/" ++ B) ∧
    (∀ (hashFn : String → Int) (pre A post : String),
      A.data ≠ [] → '/' ∉ A.data → post.data.headD '/' = '/' →
      (∀ n, n < (pre ++ "/doi/" ++ A ++ post).data.length →
        tryDoi2 ((pre ++ "/doi/" ++ A ++ post).data.drop n) = none) →
      (∀ n, n < pre.data.length →
        tryDoi1 ((pre ++ "/doi/" ++ A ++ post).data.drop n) = none) →
      extractDatasetIdFromUrl hashFn (pre ++ "/doi/" ++ A ++ post) = A) ∧
    (∀ (hashFn : String → Int) (url : String),
      (∀ n, n < url.data.length → tryDoi2 (url.data.drop n) = none) →
      (∀ n, n < url.data.length → tryDoi1 (url.data.drop n) = none) →
      (∀ n, n < url.data.length → tryDoiQ (url.data.drop n) = none) →
      pyStartsWith (extractDatasetIdFromUrl hashFn url) "dataset_" = true) := by
  refine ⟨?_, ?_, ?_⟩
  · intro hashFn pre A B post hAne hAfree hBne hBfree hpost hpre
    have hurl : (pre ++ "/doi/" ++ A ++ "/" ++ B ++ post).data =
        pre.data ++ '/' :: 'd' :: 'o' :: 'i' :: '/' ::
          (A.data ++ '/' :: (B.data ++ post.data)) := by
      have h1 : ("/doi/" : String).data = ['/', 'd', 'o', 'i', '/'] := rfl
      have h2 : ("/" : String).data = ['/'] := rfl
      simp [String.data_append, h1, h2, List.append_assoc]
    have hsplitA := takeWhile_append_sat (B.data ++ post.data)
      (notSlash_all hAfree) notSlash_slash
    have htakeB : (B.data ++ post.data).takeWhile notSlash = B.data :=
      takeWhile_notSlash_seg hBfree hpost
    have htry : tryDoi2 ('/' :: 'd' :: 'o' :: 'i' :: '/' ::
        (A.data ++ '/' :: (B.data ++ post.data))) = some (A.data ++ '/' :: B.data) := by
      rw [tryDoi2_cons, hsplitA.1, hsplitA.2]
      rw [if_neg hAne, if_neg (by simp)]
      simp only [List.tail_cons]
      rw [htakeB, if_neg hBne]
    have hscan : scanFor tryDoi2 ((pre ++ "/doi/" ++ A ++ "/" ++ B ++ post).data) =
        some (A.data ++ '/' :: B.data) := by
      rw [hurl]
      rw [scanFor_append _ (fun n hn => hurl ▸ hpre n hn)]
      rw [scanFor_cons, htry]
    unfold extractDatasetIdFromUrl
    rw [hscan]
    show (A.data ++ '/' :: B.data).asString = A ++ "/" ++ B
    apply String.ext
    have h2 : ("/" : String).data = ['/'] := rfl
    simp [List.asString, String.data_append, h2]
  · intro hashFn pre A post hAne hAfree hpost htwo hone
    have hurl : (pre ++ "/doi/" ++ A ++ post).data =
        pre.data ++ '/' :: 'd' :: 'o' :: 'i' :: '/' :: (A.data ++ post.data) := by
      have h1 : ("/doi/" : String).data = ['/', 'd', 'o', 'i', '/'] := rfl
      simp [String.data_append, h1, List.append_assoc]
    have hnone2 : scanFor tryDoi2 ((pre ++ "/doi/" ++ A ++ post).data) = none :=
      scanFor_eq_none htwo
    have htake : (A.data ++ post.data).takeWhile notSlash = A.data :=
      takeWhile_notSlash_seg hAfree hpost
    have htry : tryDoi1 ('/' :: 'd' :: 'o' :: 'i' :: '/' :: (A.data ++ post.data)) =
        some A.data := by
      rw [tryDoi1_cons, htake, if_neg hAne]
    have hscan : scanFor tryDoi1 ((pre ++ "/doi/" ++ A ++ post).data) = some A.data := by
      rw [hurl]
      rw [scanFor_append _ (fun n hn => hurl ▸ hone n hn)]
      rw [scanFor_cons, htry]
    unfold extractDatasetIdFromUrl
    rw [hnone2, hscan]
    show A.data.asString = A
    exact String.ext rfl
  · intro hashFn url h2 h1 hq
    have hn2 : scanFor tryDoi2 url.data = none := scanFor_eq_none h2
    have hn1 : scanFor tryDoi1 url.data = none := scanFor_eq_none h1
    have hnq : scanFor tryDoiQ url.data = none := scanFor_eq_none hq
    unfold extractDatasetIdFromUrl
    rw [hn2, hn1, hnq]
    show pyStartsWith ("dataset_" ++ toString (hashFn url % 1000000)) "dataset_" = true
    unfold pyStartsWith
    rw [String.data_append]
    exact isPfxOf_self_append _ _

/-- Witness for C7: the three conjuncts applied at concrete URLs. -/
theorem c7_doi_resolution_witness :
    extractDatasetIdFromUrl (fun _ => 7)
      ("https://kmt.vander-lingen.nl" ++ "/doi/" ++ "10.1021" ++ "/" ++ "jacsau.4c01276" ++
        "/start/0") = "10.1021" ++ "/" ++ "jacsau.4c01276" ∧
    extractDatasetIdFromUrl (fun _ => 7)
      ("https://kmt.vander-lingen.nl" ++ "/doi/" ++ "10.1021" ++ "") = "10.1021" ∧
    pyStartsWith (extractDatasetIdFromUrl (fun _ => 7) "https://example.com/page")
      "dataset_" = true :=
  ⟨c7_doi_resolution.1 (fun _ => 7) "https://kmt.vander-lingen.nl" "10.1021" "jacsau.4c01276"
      "/start/0" (by decide) (by decide) (by decide) (by decide) (by decide) (by decide),
   c7_doi_resolution.2.1 (fun _ => 7) "https://kmt.vander-lingen.nl" "10.1021" ""
      (by decide) (by decide) (by decide) (by decide) (by decide),
   c7_doi_resolution.2.2 (fun _ => 7) "https://example.com/page"
      (by decide) (by decide) (by decide)⟩

/-! Lemmas about insertion-ordered dictionaries and the merge. -/

theorem alistLookup_set_self {α : Type} :
    ∀ (m : List (String × α)) (k : String) (v : α),
      alistLookup (alistSet m k v) k = some v := by
  intro m
  induction m with
  | nil => intro k v; simp [alistSet, alistLookup]
  | cons p rest ih =>
    intro k v
    obtain ⟨k', v'⟩ := p
    by_cases hk : k' = k
    · simp [alistSet, hk, alistLookup]
    · simp [alistSet, hk, alistLookup, ih]

theorem alistLookup_set_ne {α : Type} :
    ∀ (m : List (String × α)) (k k' : String) (v : α), k' ≠ k →
      alistLookup (alistSet m k v) k' = alistLookup m k' := by
  intro m
  induction m with
  | nil =>
    intro k k' v h
    show (if k = k' then some v else alistLookup [] k') = alistLookup [] k'
    rw [if_neg (fun he => h he.symm)]
  | cons p rest ih =>
    intro k k' v h
    obtain ⟨k₀, v₀⟩ := p
    show alistLookup (if k₀ = k then (k₀, v) :: rest else (k₀, v₀) :: alistSet rest k v) k' = _
    by_cases hk : k₀ = k
    · rw [if_pos hk]
      have hk0 : ¬ k₀ = k' := fun he => h (he.symm.trans hk)
      show (if k₀ = k' then some v else alistLookup rest k') =
        (if k₀ = k' then some v₀ else alistLookup rest k')
      rw [if_neg hk0, if_neg hk0]
    · rw [if_neg hk]
      show (if k₀ = k' then some v₀ else alistLookup (alistSet rest k v) k') =
        (if k₀ = k' then some v₀ else alistLookup rest k')
      by_cases hk' : k₀ = k'
      · rw [if_pos hk', if_pos hk']
      · rw [if_neg hk', if_neg hk', ih k k' v h]

theorem alistLookup_set_isSome {α : Type} (m : List (String × α)) (k k' : String) (v : α)
    (h : (alistLookup m k').isSome = true) :
    (alistLookup (alistSet m k v) k').isSome = true := by
  by_cases hk : k' = k
  · subst hk; rw [alistLookup_set_self]; rfl
  · rw [alistLookup_set_ne m k k' v hk]; exact h

theorem alistLookup_set_new_key {α : Type} (m : List (String × α)) (k k' : String) (v : α)
    (hnone : alistLookup m k' = none)
    (hsome : (alistLookup (alistSet m k v) k').isSome = true) : k' = k := by
  by_cases hk : k' = k
  · exact hk
  · rw [alistLookup_set_ne m k k' v hk, hnone] at hsome
    simp at hsome

theorem foldl_insertReaction_isSome :
    ∀ (rs : List ReactionDetail) (rm : ReactionMap) (rid : String),
      (alistLookup rm rid).isSome = true →
      (alistLookup (rs.foldl insertReaction rm) rid).isSome = true := by
  intro rs
  induction rs with
  | nil => intro rm rid h; exact h
  | cons r rs ih =>
    intro rm rid h
    rw [List.foldl_cons]
    apply ih
    unfold insertReaction
    by_cases hid : r.reaction_id = ""
    · rw [if_pos hid]; exact h
    · rw [if_neg hid]; exact alistLookup_set_isSome rm _ rid _ h

theorem foldl_insertReaction_not_mem :
    ∀ (rs : List ReactionDetail) (rm : ReactionMap) (rid : String),
      (∀ r ∈ rs, r.reaction_id ≠ rid) →
      alistLookup (rs.foldl insertReaction rm) rid = alistLookup rm rid := by
  intro rs
  induction rs with
  | nil => intro rm rid _; rfl
  | cons r rs ih =>
    intro rm rid h
    rw [List.foldl_cons, ih _ _ (fun r' hr' => h r' (List.mem_cons_of_mem r hr'))]
    unfold insertReaction
    by_cases hid : r.reaction_id = ""
    · rw [if_pos hid]
    · rw [if_neg hid]
      exact alistLookup_set_ne rm _ rid _ (fun he => h r (List.mem_cons_self r rs) he.symm)

theorem foldl_insertReaction_last (l1 l2 : List ReactionDetail) (r : ReactionDetail)
    (rm : ReactionMap) (hrid : r.reaction_id ≠ "")
    (hlast : ∀ r' ∈ l2, r'.reaction_id ≠ r.reaction_id) :
    alistLookup ((l1 ++ r :: l2).foldl insertReaction rm) r.reaction_id =
      some (reactionPayload r) := by
  rw [List.foldl_append, List.foldl_cons]
  rw [foldl_insertReaction_not_mem l2 _ _ hlast]
  show alistLookup (insertReaction _ r) r.reaction_id = _
  unfold insertReaction
  rw [if_neg hrid]
  exact alistLookup_set_self _ _ _

theorem resolvedId_good (hashFn : String → Int) {ds : Dataset}
    (hgood : badDatasetId ds.dataset_id = false) :
    resolvedId hashFn ds = ds.dataset_id := by
  simp [resolvedId, hgood]

theorem mergeDataset_skip (hashFn : String → Int) (out : Store) (ds : Dataset)
    (hb : badDatasetId (resolvedId hashFn ds) = true) :
    mergeDataset hashFn out ds = out := by
  simp only [mergeDataset, hb, if_true]

theorem mergeDataset_act_none (hashFn : String → Int) (out : Store) (ds : Dataset)
    (hb : badDatasetId (resolvedId hashFn ds) = false)
    (hdet : ds.reaction_details = none) :
    mergeDataset hashFn out ds =
      alistSet out ("DOI " ++ (splitDoi (resolvedId hashFn ds)).1)
        (alistSet ((alistLookup out ("DOI " ++ (splitDoi (resolvedId hashFn ds)).1)).getD [])
          (splitDoi (resolvedId hashFn ds)).2
          ((alistLookup
              ((alistLookup out ("DOI " ++ (splitDoi (resolvedId hashFn ds)).1)).getD [])
              (splitDoi (resolvedId hashFn ds)).2).getD [])) := by
  simp only [mergeDataset, hb, Bool.false_eq_true, if_false, hdet]

theorem mergeDataset_act_some (hashFn : String → Int) (out : Store) (ds : Dataset)
    (rs : List ReactionDetail)
    (hb : badDatasetId (resolvedId hashFn ds) = false)
    (hdet : ds.reaction_details = some rs) :
    mergeDataset hashFn out ds =
      alistSet out ("DOI " ++ (splitDoi (resolvedId hashFn ds)).1)
        (alistSet ((alistLookup out ("DOI " ++ (splitDoi (resolvedId hashFn ds)).1)).getD [])
          (splitDoi (resolvedId hashFn ds)).2
          (rs.foldl insertReaction
            ((alistLookup
                ((alistLookup out ("DOI " ++ (splitDoi (resolvedId hashFn ds)).1)).getD [])
                (splitDoi (resolvedId hashFn ds)).2).getD []))) := by
  simp only [mergeDataset, hb, Bool.false_eq_true, if_false, hdet]

theorem mergeDataset_preserve1 (hashFn : String → Int) (out : Store) (ds : Dataset)
    (pk : String) (h : (alistLookup out pk).isSome = true) :
    (alistLookup (mergeDataset hashFn out ds) pk).isSome = true := by
  cases hb : badDatasetId (resolvedId hashFn ds) with
  | true => rw [mergeDataset_skip hashFn out ds hb]; exact h
  | false =>
    rcases hdet : ds.reaction_details with _ | rs
    · rw [mergeDataset_act_none hashFn out ds hb hdet]
      exact alistLookup_set_isSome _ _ _ _ h
    · rw [mergeDataset_act_some hashFn out ds rs hb hdet]
      exact alistLookup_set_isSome _ _ _ _ h

theorem store2_isSome_set {out : Store} {pk sk doiKey suf : String} {body : ReactionMap}
    (h : (store2 out pk sk).isSome = true) :
    (store2 (alistSet out doiKey
        (alistSet ((alistLookup out doiKey).getD []) suf body)) pk sk).isSome = true := by
  unfold store2 at h ⊢
  rcases hpk : alistLookup out pk with _ | smOld
  · rw [hpk] at h; simp at h
  · rw [hpk, Option.some_bind] at h
    by_cases hk : pk = doiKey
    · subst hk
      rw [alistLookup_set_self, Option.some_bind, hpk, Option.getD_some]
      exact alistLookup_set_isSome _ _ _ _ h
    · rw [alistLookup_set_ne _ _ _ _ hk, hpk, Option.some_bind]
      exact h

theorem mergeDataset_preserve2 (hashFn : String → Int) (out : Store) (ds : Dataset)
    (pk sk : String) (h : (store2 out pk sk).isSome = true) :
    (store2 (mergeDataset hashFn out ds) pk sk).isSome = true := by
  cases hb : badDatasetId (resolvedId hashFn ds) with
  | true => rw [mergeDataset_skip hashFn out ds hb]; exact h
  | false =>
    rcases hdet : ds.reaction_details with _ | rs
    · rw [mergeDataset_act_none hashFn out ds hb hdet]
      exact store2_isSome_set h
    · rw [mergeDataset_act_some hashFn out ds rs hb hdet]
      exact store2_isSome_set h

theorem store3_isSome_set {out : Store} {pk sk rid doiKey suf : String}
    {f : ReactionMap → ReactionMap}
    (hf : ∀ (rm : ReactionMap), (alistLookup rm rid).isSome = true →
      (alistLookup (f rm) rid).isSome = true)
    (h : (store3 out pk sk rid).isSome = true) :
    (store3 (alistSet out doiKey
        (alistSet ((alistLookup out doiKey).getD []) suf
          (f ((alistLookup ((alistLookup out doiKey).getD []) suf).getD []))))
      pk sk rid).isSome = true := by
  unfold store3 at h ⊢
  rcases hpk : alistLookup out pk with _ | smOld
  · rw [hpk] at h; simp at h
  · rw [hpk, Option.some_bind] at h
    rcases hsk : alistLookup smOld sk with _ | rmOld
    · rw [hsk] at h; simp at h
    · rw [hsk, Option.some_bind] at h
      by_cases hk : pk = doiKey
      · subst hk
        rw [alistLookup_set_self, Option.some_bind, hpk, Option.getD_some]
        by_cases hs : sk = suf
        · subst hs
          rw [alistLookup_set_self, Option.some_bind, hsk, Option.getD_some]
          exact hf rmOld h
        · rw [alistLookup_set_ne _ _ _ _ hs, hsk, Option.some_bind]
          exact h
      · rw [alistLookup_set_ne _ _ _ _ hk, hpk, Option.some_bind, hsk, Option.some_bind]
        exact h

theorem mergeDataset_preserve3 (hashFn : String → Int) (out : Store) (ds : Dataset)
    (pk sk rid : String) (h : (store3 out pk sk rid).isSome = true) :
    (store3 (mergeDataset hashFn out ds) pk sk rid).isSome = true := by
  cases hb : badDatasetId (resolvedId hashFn ds) with
  | true => rw [mergeDataset_skip hashFn out ds hb]; exact h
  | false =>
    rcases hdet : ds.reaction_details with _ | rs
    · rw [mergeDataset_act_none hashFn out ds hb hdet]
      exact @store3_isSome_set out pk sk rid _ _ (fun rm => rm) (fun _ hrm => hrm) h
    · rw [mergeDataset_act_some hashFn out ds rs hb hdet]
      exact store3_isSome_set (fun rm hrm => foldl_insertReaction_isSome rs rm rid hrm) h

theorem mergeDataset_store3_last (hashFn : String → Int) (out : Store) (ds : Dataset)
    (l1 l2 : List ReactionDetail) (r : ReactionDetail)
    (hb : badDatasetId (resolvedId hashFn ds) = false)
    (hdet : ds.reaction_details = some (l1 ++ r :: l2))
    (hrid : r.reaction_id ≠ "")
    (hlast : ∀ r' ∈ l2, r'.reaction_id ≠ r.reaction_id) :
    store3 (mergeDataset hashFn out ds) ("DOI " ++ (splitDoi (resolvedId hashFn ds)).1)
      (splitDoi (resolvedId hashFn ds)).2 r.reaction_id = some (reactionPayload r) := by
  rw [mergeDataset_act_some hashFn out ds _ hb hdet]
  unfold store3
  rw [alistLookup_set_self, Option.some_bind, alistLookup_set_self, Option.some_bind]
  exact foldl_insertReaction_last l1 l2 r _ hrid hlast

theorem store3_set_other_path {out : Store} {pk sk rid doiKey suf : String}
    {body : ReactionMap}
    (hdiff : doiKey ≠ pk ∨ suf ≠ sk) :
    store3 (alistSet out doiKey
        (alistSet ((alistLookup out doiKey).getD []) suf body)) pk sk rid =
      store3 out pk sk rid := by
  unfold store3
  by_cases hk : pk = doiKey
  · subst hk
    have hs : ¬ sk = suf := by
      rcases hdiff with hd | hd
      · exact absurd rfl hd
      · exact fun he => hd he.symm
    rw [alistLookup_set_self, Option.some_bind]
    rcases hpk : alistLookup out pk with _ | smOld
    · rw [Option.getD_none, alistLookup_set_ne _ _ _ _ (fun he => hs he)]
      rfl
    · rw [Option.getD_some, alistLookup_set_ne _ _ _ _ (fun he => hs he), Option.some_bind]
  · rw [alistLookup_set_ne _ _ _ _ hk]

theorem isPfxOf_append_same : ∀ (x a b : List Char), isPfxOf (x ++ a) (x ++ b) = isPfxOf a b := by
  intro x
  induction x with
  | nil => intro a b; rfl
  | cons c x' ih => intro a b; simp [isPfxOf, ih]

theorem isPfxOf_extend : ∀ (p a r : List Char), isPfxOf p a = true → isPfxOf p (a ++ r) = true := by
  intro p
  induction p with
  | nil => intro a r _; rfl
  | cons c p' ih =>
    intro a r h
    cases a with
    | nil => simp [isPfxOf] at h
    | cons b a' =>
      simp only [isPfxOf, Bool.and_eq_true, beq_iff_eq] at h
      simp only [List.cons_append, isPfxOf, Bool.and_eq_true, beq_iff_eq]
      exact ⟨h.1, ih a' r h.2⟩

theorem splitFirstSlash_eq :
    ∀ {l a b : List Char}, splitFirstSlash l = some (a, b) → l = a ++ '/' :: b := by
  intro l
  induction l with
  | nil => intro a b h; simp [splitFirstSlash] at h
  | cons c rest ih =>
    intro a b h
    by_cases hc : c = '/'
    · rw [splitFirstSlash, if_pos hc] at h
      obtain ⟨ha, hb⟩ := Prod.mk.injEq .. ▸ Option.some.injEq .. ▸ h
      subst hc
      rw [← ha, ← hb]
      rfl
    · rw [splitFirstSlash, if_neg hc] at h
      rcases hr : splitFirstSlash rest with _ | ⟨a', b'⟩
      · rw [hr] at h; simp at h
      · rw [hr] at h
        have h' : some (c :: a', b') = some (a, b) := h
        injection h' with hpair
        injection hpair with h1 h2
        rw [← h1, ← h2, ih hr]
        rfl

theorem splitDoi_data (doi : String) :
    doi.data = (splitDoi doi).1.data ++ ((splitDoi doi).2).data := by
  unfold splitDoi
  rcases h : splitFirstSlash doi.data with _ | ⟨a, b⟩
  · show doi.data = doi.data ++ ("" : String).data
    rw [show (("" : String).data) = ([] : List Char) from rfl, List.append_nil]
  · show doi.data = (a.asString).data ++ ("/" ++ b.asString).data
    have h2 : ("/" : String).data = ['/'] := rfl
    rw [splitFirstSlash_eq h, String.data_append, h2]
    rfl

theorem badDatasetId_false_not_sentinel {doi : String} (h : badDatasetId doi = false) :
    pyStartsWith doi "dataset_" = false := by
  unfold badDatasetId at h
  exact (Bool.or_eq_false_iff.mp h).2

theorem doiKey_not_sentinel {doi : String} (h : badDatasetId doi = false) :
    pyStartsWith ("DOI " ++ (splitDoi doi).1) "DOI dataset_" = false := by
  cases hP : pyStartsWith ("DOI " ++ (splitDoi doi).1) "DOI dataset_" with
  | false => rfl
  | true =>
    exfalso
    unfold pyStartsWith at hP
    have hsplit : ("DOI dataset_" : String).data =
        ("DOI " : String).data ++ ("dataset_" : String).data := rfl
    rw [hsplit, String.data_append, isPfxOf_append_same] at hP
    have hext := isPfxOf_extend _ _ ((splitDoi doi).2).data hP
    rw [← splitDoi_data] at hext
    have hns := badDatasetId_false_not_sentinel h
    unfold pyStartsWith at hns
    rw [hns] at hext
    exact Bool.false_ne_true hext

theorem mergeDataset_frame_path (hashFn : String → Int) (out : Store) (ds : Dataset)
    (pk sk rid : String)
    (hb : badDatasetId (resolvedId hashFn ds) = false)
    (hdiff : "DOI " ++ (splitDoi (resolvedId hashFn ds)).1 ≠ pk ∨
      (splitDoi (resolvedId hashFn ds)).2 ≠ sk) :
    store3 (mergeDataset hashFn out ds) pk sk rid = store3 out pk sk rid := by
  rcases hdet : ds.reaction_details with _ | rs
  · rw [mergeDataset_act_none hashFn out ds hb hdet]
    exact store3_set_other_path hdiff
  · rw [mergeDataset_act_some hashFn out ds rs hb hdet]
    exact store3_set_other_path hdiff

/-- C1 counterexample: merging the scenario record persists a flat payload
object; the lookup of a reaction_smiles field and of a components field
in the persisted payload both yield nothing, while the payload itself is
present with only the three separated SMILES fields. -/
theorem c1_payload_shape_counterexample :
    (fun st =>
      ((store3 st "DOI 10.1021" "/jacsau.4c01276" "reaction_1").bind
          (fun j => jsonField j "reaction_smiles"),
        (store3 st "DOI 10.1021" "/jacsau.4c01276" "reaction_1").bind
          (fun j => jsonField j "components"),
        store3 st "DOI 10.1021" "/jacsau.4c01276" "reaction_1"))
      (save_current_data (fun _ => 0) [] [sampleDataset]) =
    (none, none,
      some (Json.obj [("reactant_smiles", Json.str "CCO.CC(=O)O"),
        ("solvent_smiles", Json.str "O"),
        ("product_smiles", Json.str "CC(=O)OCC.O")])) := rfl

/-- C1 amended: for every reaction record with a non-empty reaction_id
merged into the store, the persisted entry at
store[doi_key][suffix][reaction_id] is the flat reactionPayload object
(the three separated SMILES strings, plus name only when non-empty); it
carries neither a reaction_smiles field nor a nested components object. -/
theorem c1_payload_flat_object :
    (∀ (hashFn : String → Int) (ex : Store) (d : Dataset)
      (l1 l2 : List ReactionDetail) (r : ReactionDetail),
      badDatasetId d.dataset_id = false →
      d.reaction_details = some (l1 ++ r :: l2) →
      r.reaction_id ≠ "" →
      (∀ r' ∈ l2, r'.reaction_id ≠ r.reaction_id) →
      store3 (save_current_data hashFn ex [d]) ("DOI " ++ (splitDoi d.dataset_id).1)
        (splitDoi d.dataset_id).2 r.reaction_id = some (reactionPayload r)) ∧
    (∀ r : ReactionDetail,
      jsonField (reactionPayload r) "reaction_smiles" = none ∧
      jsonField (reactionPayload r) "components" = none) := by
  constructor
  · intro hashFn ex d l1 l2 r hgood hdet hrid hlast
    have hres : resolvedId hashFn d = d.dataset_id := resolvedId_good hashFn hgood
    have h := mergeDataset_store3_last hashFn ex d l1 l2 r
      (by rw [hres]; exact hgood) hdet hrid hlast
    rw [hres] at h
    exact h
  · intro r
    unfold reactionPayload jsonField
    by_cases hname : pyStrip r.name ≠ ""
    · rw [if_pos hname]
      constructor <;> simp [alistLookup]
    · rw [if_neg hname]
      constructor <;> simp [alistLookup]

/-- Witness for C1 at the scenario record. -/
theorem c1_payload_flat_object_witness :
    store3 (save_current_data (fun _ => 0) [] [sampleDataset])
      ("DOI " ++ (splitDoi sampleDataset.dataset_id).1)
      (splitDoi sampleDataset.dataset_id).2 sampleDetail.reaction_id =
      some (reactionPayload sampleDetail) :=
  c1_payload_flat_object.1 (fun _ => 0) [] sampleDataset [] [] sampleDetail
    (by decide) rfl (by decide) (fun r' hr' => absurd hr' (List.not_mem_nil r'))

/-- C2 counterexample: a dataset whose stored identifier carries the
sentinel prefix but whose url contains a DOI path is persisted (the code
re-resolves the identifier from the url before deciding to skip), so the
claim that such a dataset contributes nothing is false. -/
theorem c2_sentinel_recovery_counterexample :
    (store3 (save_current_data (fun _ => 0) [] [sentinelUrlDataset])
      "DOI 10.1021" "/jacsau.4c01276" "reaction_1").isSome = true := rfl

/-- C2 amended: a dataset whose identifier is empty or sentinel-prefixed
is first re-resolved from its url; only when the re-resolved identifier is
still empty or sentinel-prefixed is the dataset skipped entirely (no
write, no error).  The persisted document still never gains an entry
keyed by a sentinel-prefixed identifier. -/
theorem c2_unresolved_skip :
    (∀ (hashFn : String → Int) (out : Store) (d : Dataset),
      badDatasetId d.dataset_id = true →
      badDatasetId (extractDatasetIdFromUrl hashFn d.url) = true →
      mergeDataset hashFn out d = out) ∧
    (∀ (hashFn : String → Int) (out : Store) (d : Dataset) (pk : String),
      alistLookup out pk = none →
      (alistLookup (mergeDataset hashFn out d) pk).isSome = true →
      pyStartsWith pk "DOI dataset_" = false) := by
  constructor
  · intro hashFn out d hbad hbadUrl
    apply mergeDataset_skip
    simp [resolvedId, hbad, hbadUrl]
  · intro hashFn out d pk hnone hsome
    cases hb : badDatasetId (resolvedId hashFn d) with
    | true =>
      rw [mergeDataset_skip hashFn out d hb, hnone] at hsome
      simp at hsome
    | false =>
      have hkey : pk = "DOI " ++ (splitDoi (resolvedId hashFn d)).1 := by
        rcases hdet : d.reaction_details with _ | rs
        · rw [mergeDataset_act_none hashFn out d hb hdet] at hsome
          exact alistLookup_set_new_key out _ _ _ hnone hsome
        · rw [mergeDataset_act_some hashFn out d rs hb hdet] at hsome
          exact alistLookup_set_new_key out _ _ _ hnone hsome
      rw [hkey]
      exact doiKey_not_sentinel hb

/-- Witness for C2: a dataset with a sentinel identifier and a DOI-free
url is skipped, leaving a pre-existing store untouched; and a freshly
created top-level key is never sentinel-prefixed. -/
theorem c2_unresolved_skip_witness :
    mergeDataset (fun _ => 0) [("DOI 10.1021", [])] sentinelPlainDataset =
      [("DOI 10.1021", [])] ∧
    pyStartsWith "DOI 10.1021" "DOI dataset_" = false :=
  ⟨c2_unresolved_skip.1 (fun _ => 0) [("DOI 10.1021", [])] sentinelPlainDataset
      (by decide) (by decide),
   c2_unresolved_skip.2 (fun _ => 0) [] sampleDataset "DOI 10.1021" rfl rfl⟩

/-- C3: every prefix key, suffix key and reaction entry present before a
save is still present after it, and persisting dataset A then dataset B
with distinct resolved DOI prefix/suffix pairs leaves both entries
present, each under its own distinct path. -/
theorem c3_save_frame :
    (∀ (hashFn : String → Int) (ex : Store) (ds : List Dataset) (pk : String),
      (alistLookup ex pk).isSome = true →
      (alistLookup (save_current_data hashFn ex ds) pk).isSome = true) ∧
    (∀ (hashFn : String → Int) (ex : Store) (ds : List Dataset) (pk sk : String),
      (store2 ex pk sk).isSome = true →
      (store2 (save_current_data hashFn ex ds) pk sk).isSome = true) ∧
    (∀ (hashFn : String → Int) (ex : Store) (ds : List Dataset) (pk sk rid : String),
      (store3 ex pk sk rid).isSome = true →
      (store3 (save_current_data hashFn ex ds) pk sk rid).isSome = true) ∧
    (∀ (hashFn : String → Int) (ex : Store) (dA dB : Dataset) (rA rB : ReactionDetail),
      badDatasetId dA.dataset_id = false → badDatasetId dB.dataset_id = false →
      dA.reaction_details = some [rA] → dB.reaction_details = some [rB] →
      rA.reaction_id ≠ "" → rB.reaction_id ≠ "" →
      splitDoi dA.dataset_id ≠ splitDoi dB.dataset_id →
      store3 (save_current_data hashFn (save_current_data hashFn ex [dA]) [dB])
          ("DOI " ++ (splitDoi dA.dataset_id).1) (splitDoi dA.dataset_id).2 rA.reaction_id =
        some (reactionPayload rA) ∧
      store3 (save_current_data hashFn (save_current_data hashFn ex [dA]) [dB])
          ("DOI " ++ (splitDoi dB.dataset_id).1) (splitDoi dB.dataset_id).2 rB.reaction_id =
        some (reactionPayload rB) ∧
      ("DOI " ++ (splitDoi dA.dataset_id).1, (splitDoi dA.dataset_id).2) ≠
        ("DOI " ++ (splitDoi dB.dataset_id).1, (splitDoi dB.dataset_id).2)) := by
  refine ⟨?_, ?_, ?_, ?_⟩
  · intro hashFn ex ds
    induction ds generalizing ex with
    | nil => intro pk h; exact h
    | cons d ds' ih =>
      intro pk h
      show (alistLookup (save_current_data hashFn (mergeDataset hashFn ex d) ds') pk).isSome
        = true
      exact ih _ pk (mergeDataset_preserve1 hashFn ex d pk h)
  · intro hashFn ex ds
    induction ds generalizing ex with
    | nil => intro pk sk h; exact h
    | cons d ds' ih =>
      intro pk sk h
      show (store2 (save_current_data hashFn (mergeDataset hashFn ex d) ds') pk sk).isSome
        = true
      exact ih _ pk sk (mergeDataset_preserve2 hashFn ex d pk sk h)
  · intro hashFn ex ds
    induction ds generalizing ex with
    | nil => intro pk sk rid h; exact h
    | cons d ds' ih =>
      intro pk sk rid h
      show (store3 (save_current_data hashFn (mergeDataset hashFn ex d) ds') pk sk rid).isSome
        = true
      exact ih _ pk sk rid (mergeDataset_preserve3 hashFn ex d pk sk rid h)
  · intro hashFn ex dA dB rA rB hgA hgB hdA hdB hrA hrB hne
    have hresA : resolvedId hashFn dA = dA.dataset_id := resolvedId_good hashFn hgA
    have hresB : resolvedId hashFn dB = dB.dataset_id := resolvedId_good hashFn hgB
    have hbA : badDatasetId (resolvedId hashFn dA) = false := by rw [hresA]; exact hgA
    have hbB : badDatasetId (resolvedId hashFn dB) = false := by rw [hresB]; exact hgB
    have hpairne : ("DOI " ++ (splitDoi dA.dataset_id).1, (splitDoi dA.dataset_id).2) ≠
        ("DOI " ++ (splitDoi dB.dataset_id).1, (splitDoi dB.dataset_id).2) := by
      intro hpair
      apply hne
      have h1 := congrArg Prod.fst hpair
      have h2 := congrArg Prod.snd hpair
      have h1' : (splitDoi dA.dataset_id).1 = (splitDoi dB.dataset_id).1 := by
        have hd := congrArg String.data h1
        rw [String.data_append, String.data_append] at hd
        exact String.ext (List.append_cancel_left hd)
      exact Prod.ext_iff.mpr ⟨h1', h2⟩
    have hBlast : ∀ r' ∈ ([] : List ReactionDetail), r'.reaction_id ≠ rB.reaction_id :=
      fun r' hr' => absurd hr' (List.not_mem_nil r')
    have hAlast : ∀ r' ∈ ([] : List ReactionDetail), r'.reaction_id ≠ rA.reaction_id :=
      fun r' hr' => absurd hr' (List.not_mem_nil r')
    have hA1 : store3 (mergeDataset hashFn ex dA) ("DOI " ++ (splitDoi dA.dataset_id).1)
        (splitDoi dA.dataset_id).2 rA.reaction_id = some (reactionPayload rA) := by
      have h := mergeDataset_store3_last hashFn ex dA [] [] rA hbA hdA hrA hAlast
      rw [hresA] at h
      exact h
    have hB1 : store3 (mergeDataset hashFn (mergeDataset hashFn ex dA) dB)
        ("DOI " ++ (splitDoi dB.dataset_id).1) (splitDoi dB.dataset_id).2 rB.reaction_id =
        some (reactionPayload rB) := by
      have h := mergeDataset_store3_last hashFn (mergeDataset hashFn ex dA) dB [] [] rB
        hbB hdB hrB hBlast
      rw [hresB] at h
      exact h
    have hdiffB : "DOI " ++ (splitDoi (resolvedId hashFn dB)).1 ≠
        "DOI " ++ (splitDoi dA.dataset_id).1 ∨
        (splitDoi (resolvedId hashFn dB)).2 ≠ (splitDoi dA.dataset_id).2 := by
      rw [hresB]
      by_cases hk : "DOI " ++ (splitDoi dB.dataset_id).1 = "DOI " ++ (splitDoi dA.dataset_id).1
      · right
        intro hs
        exact hpairne (Prod.ext_iff.mpr ⟨hk.symm, hs.symm⟩)
      · left; exact hk
    have hframe := mergeDataset_frame_path hashFn (mergeDataset hashFn ex dA) dB
      ("DOI " ++ (splitDoi dA.dataset_id).1) (splitDoi dA.dataset_id).2 rA.reaction_id
      hbB hdiffB
    refine ⟨?_, hB1, hpairne⟩
    show store3 (mergeDataset hashFn (mergeDataset hashFn ex dA) dB)
      ("DOI " ++ (splitDoi dA.dataset_id).1) (splitDoi dA.dataset_id).2 rA.reaction_id = _
    rw [hframe]
    exact hA1

/-- Witness for C3: a pre-existing entry survives two saves, and dataset A
followed by dataset B with a different DOI suffix leaves both entries. -/
theorem c3_save_frame_witness :
    (store3 (save_current_data (fun _ => 0)
        [("DOI 10.9999", [("/zz", [("reaction_7", Json.obj [])])])]
        [sampleDataset]) "DOI 10.9999" "/zz" "reaction_7").isSome = true ∧
    store3 (save_current_data (fun _ => 0) (save_current_data (fun _ => 0) [] [sampleDataset])
        [sampleDatasetC])
        ("DOI " ++ (splitDoi sampleDataset.dataset_id).1)
        (splitDoi sampleDataset.dataset_id).2 sampleDetail.reaction_id =
      some (reactionPayload sampleDetail) :=
  ⟨c3_save_frame.2.2.1 (fun _ => 0)
      [("DOI 10.9999", [("/zz", [("reaction_7", Json.obj [])])])]
      [sampleDataset] "DOI 10.9999" "/zz" "reaction_7" rfl,
   (c3_save_frame.2.2.2 (fun _ => 0) [] sampleDataset sampleDatasetC
      sampleDetail sampleDetailB (by decide) (by decide) rfl rfl (by decide) (by decide)
      (by decide)).1⟩

/-- C4 counterexample: after a successful save leaves the serialized
empty document on disk, a write that fails at the start of streaming
leaves an empty (truncated) file, not the last successfully written
document, and the failure is caught inside save_current_data rather than
surfaced to the caller. -/
theorem c4_nonatomic_write_counterexample :
    (saveStep (fun _ => 0) ⟨[], ""⟩ [] WriteOutcome.ok).1.fileContent = "\x7b\x7d" ∧
    (saveStep (fun _ => 0) (saveStep (fun _ => 0) ⟨[], ""⟩ [] WriteOutcome.ok).1
        [sampleDataset] (WriteOutcome.failAfter 0)).1.fileContent = "" ∧
    (saveStep (fun _ => 0) (saveStep (fun _ => 0) ⟨[], ""⟩ [] WriteOutcome.ok).1
        [sampleDataset] (WriteOutcome.failAfter 0)).2 = false ∧
    ("" : String) ≠ "\x7b\x7d" :=
  ⟨rfl, rfl, rfl, by decide⟩

/-- C4 amended: when the write of a non-empty pending list fails, the
in-memory snapshot is kept unchanged and the exception is caught and
logged rather than surfaced to the caller, but the on-disk file is left
holding only the prefix of the serialized document written before the
failure (the truncate-then-stream write is not all-or-nothing). -/
theorem c4_failed_write_preserves_snapshot (hashFn : String → Int) (st : SaverState)
    (datasets : List Dataset) (k : Nat) (hne : datasets ≠ []) :
    (saveStep hashFn st datasets (WriteOutcome.failAfter k)).1.existing_data =
      st.existing_data ∧
    (saveStep hashFn st datasets (WriteOutcome.failAfter k)).2 = false ∧
    (saveStep hashFn st datasets (WriteOutcome.failAfter k)).1.fileContent =
      ((serializeStore (save_current_data hashFn st.existing_data datasets)).data.take
        k).asString := by
  have hemp : datasets.isEmpty = false := by
    cases datasets with
    | nil => exact absurd rfl hne
    | cons d ds => rfl
  refine ⟨?_, ?_, ?_⟩ <;> simp [saveStep, writeFile, hemp]

/-- Witness for C4 at a concrete failing write. -/
theorem c4_failed_write_preserves_snapshot_witness :
    (saveStep (fun _ => 0) ⟨[], "\x7b\x7d"⟩ [sampleDataset]
      (WriteOutcome.failAfter 3)).1.existing_data = [] ∧
    (saveStep (fun _ => 0) ⟨[], "\x7b\x7d"⟩ [sampleDataset]
      (WriteOutcome.failAfter 3)).2 = false :=
  ⟨(c4_failed_write_preserves_snapshot (fun _ => 0) ⟨[], "\x7b\x7d"⟩ [sampleDataset] 3
      (by simp)).1,
   (c4_failed_write_preserves_snapshot (fun _ => 0) ⟨[], "\x7b\x7d"⟩ [sampleDataset] 3
      (by simp)).2.1⟩

/-- C10: reaction ids are generated as reaction_(index+1), restarting from
one in every dataset because the index is the position in that dataset's
own reaction list; and persisting a second dataset that resolves to the
same DOI overwrites the first dataset's record at every shared
reaction_id (last write wins across datasets). -/
theorem c10_same_doi_overwrite :
    (∀ (s : String) (i : Nat) (d : Option String),
      (extract_reaction_details s i d).reaction_id = "reaction_" ++ toString (i + 1)) ∧
    (∀ (hashFn : String → Int) (ex : Store) (dA dB : Dataset) (rA rB : ReactionDetail),
      badDatasetId dA.dataset_id = false →
      dB.dataset_id = dA.dataset_id →
      dA.reaction_details = some [rA] → dB.reaction_details = some [rB] →
      rA.reaction_id = rB.reaction_id → rB.reaction_id ≠ "" →
      store3 (save_current_data hashFn (save_current_data hashFn ex [dA]) [dB])
          ("DOI " ++ (splitDoi dA.dataset_id).1) (splitDoi dA.dataset_id).2 rB.reaction_id =
        some (reactionPayload rB)) := by
  constructor
  · intro s i d; rfl
  · intro hashFn ex dA dB rA rB hgA heq hdA hdB hid hrB
    have hgB : badDatasetId dB.dataset_id = false := by rw [heq]; exact hgA
    have hresB : resolvedId hashFn dB = dB.dataset_id := resolvedId_good hashFn hgB
    have h := mergeDataset_store3_last hashFn (mergeDataset hashFn ex dA) dB [] [] rB
      (by rw [hresB]; exact hgB) hdB hrB (fun r' hr' => absurd hr' (List.not_mem_nil r'))
    rw [hresB, heq] at h
    exact h

/-- Witness for C10: id generation at index 4 and the concrete overwrite
of reaction_1 by the second dataset. -/
theorem c10_same_doi_overwrite_witness :
    (extract_reaction_details "A>B>C" 4 none).reaction_id = "reaction_" ++ toString (4 + 1) ∧
    store3 (save_current_data (fun _ => 0) (save_current_data (fun _ => 0) [] [sampleDataset])
        [sampleDatasetB])
        ("DOI " ++ (splitDoi sampleDataset.dataset_id).1)
        (splitDoi sampleDataset.dataset_id).2 sampleDetailB.reaction_id =
      some (reactionPayload sampleDetailB) :=
  ⟨c10_same_doi_overwrite.1 "A>B>C" 4 none,
   c10_same_doi_overwrite.2 (fun _ => 0) [] sampleDataset sampleDatasetB sampleDetail
      sampleDetailB (by decide) rfl rfl rfl rfl (by decide)⟩

theorem extract_eq_primary {p : PageData} (hne : primaryStrategy p ≠ []) :
    extractReactionsFromPage p = primaryStrategy p := by
  unfold primaryStrategy at hne
  simp only [extractReactionsFromPage]
  rw [if_pos hne]
  rfl

theorem extract_eq_chain {p : PageData} (he : primaryStrategy p = []) :
    extractReactionsFromPage p =
      fallbackScript (fallbackSoup (fallbackAttr (fallbackPush [] p) p) p) p := by
  unfold primaryStrategy at he
  simp only [extractReactionsFromPage]
  rw [if_neg (fun hcon => hcon he), he]
  rfl

/-- C8: when the structural pane strategy yields at least one reaction it
wins outright (the result equals the primary strategy output and is
independent of every fallback source); the fallbacks run only when the
primary strategy produced nothing, and then they apply cumulatively in
order, each able to add more. -/
theorem c8_strategy_order :
    (∀ p : PageData, primaryStrategy p ≠ [] →
      extractReactionsFromPage p = primaryStrategy p) ∧
    (∀ p q : PageData, p.paneSmiles = q.paneSmiles → primaryStrategy p ≠ [] →
      extractReactionsFromPage p = extractReactionsFromPage q) ∧
    (∀ p : PageData, primaryStrategy p = [] →
      extractReactionsFromPage p =
        fallbackScript (fallbackSoup (fallbackAttr (fallbackPush [] p) p) p) p) := by
  refine ⟨fun p hne => extract_eq_primary hne, ?_, fun p he => extract_eq_chain he⟩
  intro p q hpane hne
  have hq : primaryStrategy q = primaryStrategy p := by
    unfold primaryStrategy
    rw [hpane]
  rw [extract_eq_primary hne, extract_eq_primary (by rw [hq]; exact hne), hq]

/-- Witness for C8: the pane page decodes and deduplicates its panes and
ignores its populated fallback sources; the pane-free page accumulates
fallbacks 2 to 4 with duplicate suppression across them. -/
theorem c8_strategy_order_witness :
    extractReactionsFromPage panePage = ["A>B>C"] ∧
    extractReactionsFromPage panePage = extractReactionsFromPage panePageAlt ∧
    extractReactionsFromPage fallbackPage = ["X>Y>Z", "M>N>O", "P>Q>R"] :=
  ⟨(c8_strategy_order.1 panePage (by decide)).trans (by decide),
   c8_strategy_order.2.1 panePage panePageAlt rfl (by decide),
   (c8_strategy_order.2.2 fallbackPage (by decide)).trans (by decide)⟩

/-- C9: whenever a fetched page yields zero reactions, the walk returns
the reactions accumulated from earlier pages unchanged and the only url
fetched from that point is the current one: no next-page link is followed,
even when the page carries one. -/
theorem c9_empty_page_halts (fetch : String → Option PageData) (fuel : Nat) (url : String)
    (acc : List String) (p : PageData)
    (hfetch : fetch url = some p)
    (hempty : extractReactionsFromPage p = []) :
    walkPages fetch (fuel + 1) url acc = (acc, [url]) := by
  unfold walkPages
  rw [hfetch]
  simp only [hempty]
  rfl

/-- Witness for C9: a page with no data-reaction-smiles matches anywhere,
no push calls and no script strings, but with a stray next link, halts the
walk with the earlier reactions kept and only the current url fetched. -/
theorem c9_empty_page_halts_witness :
    walkPages sampleFetch 5 "page1" ["r0"] = (["r0"], ["page1"]) :=
  c9_empty_page_halts sampleFetch 4 "page1" ["r0"] emptyListingPage rfl rfl

end CRD
